import Mathlib

/-!
Verification of the adaptive weighted character selection system
(`createAdaptiveSelector`): a shallow embedding of the per-character
performance records, the six-factor weight computation, the weighted random
selection, and the record-update operations, together with proofs of the
specified properties.

Modelling conventions:
* JavaScript numbers are modelled as real numbers (`ℝ`); timestamps
  (milliseconds from `Date.now()`) as integers (`ℤ`).
* The mutable `Map` held by the selector closure is modelled as a function
  `String → Option CharacterWeight`; the mutating operations become
  state-passing functions returning the updated state.
* Each call to `random.real(0, 1)` (the per-character exploration jitter) is
  modelled as an explicit parameter; the selection draw `random.real(0,
  totalWeight)` and the fallback `random.integer(0, length-1)` likewise.
-/

/-- Per-character performance record, mirroring the `CharacterWeight`
interface of the source (timestamps in milliseconds). -/
structure CharacterWeight where
  correct : ℕ
  wrong : ℕ
  recentMisses : List ℤ
  lastSeen : ℤ
  consecutiveCorrect : ℕ
  consecutiveWrong : ℕ

/-- The selector state: the `characterWeights : Map<string, CharacterWeight>`
of one `createAdaptiveSelector` instance, as a lookup function. -/
def SelectorState : Type := String → Option CharacterWeight

/-- The state of a freshly created selector: no character is tracked. -/
def emptyState : SelectorState := fun _ => none

/-- `characterWeights.set(char, r)`. -/
def setRecord (s : SelectorState) (char : String) (r : CharacterWeight) :
    SelectorState :=
  fun c => if c = char then some r else s c

/-- The `sigmoid` helper of the source:
`1 / (1 + Math.exp(-steepness * (x - midpoint)))`. -/
noncomputable def sigmoid (x steepness midpoint : ℝ) : ℝ :=
  1 / (1 + Real.exp (-steepness * (x - midpoint)))

/-- Factor 1 of `calculateWeight`: accuracy-based weight.
`accuracy = totalAttempts > 0 ? correct / totalAttempts : 0.5`, then
`2.5 * sigmoid(0.5 - accuracy, 6, 0)`. -/
noncomputable def accuracyWeight (correct wrong : ℕ) : ℝ :=
  let totalAttempts := correct + wrong
  let accuracy : ℝ :=
    if 0 < totalAttempts then (correct : ℝ) / (totalAttempts : ℝ) else 0.5
  2.5 * sigmoid (0.5 - accuracy) 6 0

/-- Factor 2 of `calculateWeight`: the `reduce` over `recentMisses`.
A miss younger than 30s adds 0.5, one between 30s and 120s adds a linearly
decaying fraction of 0.5, an older one adds nothing. -/
noncomputable def recentMissWeight (now : ℤ) (recentMisses : List ℤ) : ℝ :=
  List.foldl
    (fun acc missTime =>
      let ageSeconds : ℝ := ((now - missTime : ℤ) : ℝ) / 1000
      if ageSeconds < 30 then acc + 0.5
      else if ageSeconds < 120 then acc + 0.5 * (1 - (ageSeconds - 30) / 90)
      else acc)
    0 recentMisses

/-- Factor 3 of `calculateWeight`: consecutive-wrong streak penalty
`consecutiveWrong > 0 ? 1 + 0.2 * Math.sqrt(consecutiveWrong) : 1`. -/
noncomputable def streakPenalty (consecutiveWrong : ℕ) : ℝ :=
  if 0 < consecutiveWrong then 1 + 0.2 * Real.sqrt consecutiveWrong else 1

/-- Factor 4 of `calculateWeight`: mastery cooldown
`consecutiveCorrect >= 3 ? Math.max(0.15, 1 - 0.15 * Math.min(consecutiveCorrect - 2, 5)) : 1`. -/
noncomputable def masteryCooldown (consecutiveCorrect : ℕ) : ℝ :=
  if 3 ≤ consecutiveCorrect then
    max 0.15 (1 - 0.15 * min ((consecutiveCorrect : ℝ) - 2) 5)
  else 1

/-- Factor 5 of `calculateWeight`: freshness suppression, 0.3 when the
character was shown within the last 5 seconds, else 1. -/
noncomputable def freshnessBoost (now lastSeen : ℤ) : ℝ :=
  if ((now - lastSeen : ℤ) : ℝ) / 1000 < 5 then 0.3 else 1

/-- Factor 6 of `calculateWeight`: exploration factor; `jitter` models the
`random.real(0, 1)` draw. -/
noncomputable def explorationFactor (poolSize : ℕ) (jitter : ℝ) : ℝ :=
  if 20 < poolSize then 0.9 + 0.1 * jitter else 0.8 + 0.2 * jitter

/-- `calculateWeight(char, allChars)`: 1.0 for untracked characters,
otherwise the product of the six factors clamped to `[0.1, 5.0]`.
`now` models `Date.now()` and `jitter` the exploration random draw. -/
noncomputable def calculateWeight (s : SelectorState) (char : String)
    (allChars : List String) (now : ℤ) (jitter : ℝ) : ℝ :=
  match s char with
  | none => 1.0
  | some w =>
    let finalWeight :=
      accuracyWeight w.correct w.wrong *
      (1 + recentMissWeight now w.recentMisses) *
      streakPenalty w.consecutiveWrong *
      masteryCooldown w.consecutiveCorrect *
      freshnessBoost now w.lastSeen *
      explorationFactor allChars.length jitter
    max 0.1 (min 5.0 finalWeight)

/-- The candidate pool after exclusion:
`excludeChar ? chars.filter(c => c !== excludeChar) : chars`.
Note the JavaScript truthiness test: an empty-string `excludeChar` is falsy,
so it causes no filtering, exactly like an absent argument. -/
def availableChars (chars : List String) (excludeChar : Option String) :
    List String :=
  match excludeChar with
  | none => chars
  | some x => if x = "" then chars else chars.filter (fun c => c ≠ x)

/-- The weight list built in `selectWeightedCharacter`:
`availableChars.map(char => ({ char, weight: calculateWeight(char, chars) }))`,
with one fresh jitter draw per candidate (`js i` is the draw used for the
candidate at position `i`). -/
noncomputable def buildWeights (s : SelectorState) (cands allChars : List String)
    (now : ℤ) (js : ℕ → ℝ) (i : ℕ) : List (String × ℝ) :=
  match cands with
  | [] => []
  | c :: rest =>
      (c, calculateWeight s c allChars now (js i)) ::
        buildWeights s rest allChars now js (i + 1)

/-- The weighted-selection walk: subtract each weight from the running
random value and return the first character where it drops to `≤ 0`. -/
noncomputable def walkSelect (r : ℝ) : List (String × ℝ) → Option String
  | [] => none
  | (c, w) :: rest => if r - w ≤ 0 then some c else walkSelect (r - w) rest

/-- `selectWeightedCharacter(chars, excludeChar)`.
`r` models the draw `random.real(0, totalWeight)`, `js` the per-candidate
jitter draws, and `fb` the fallback draw `random.integer(0, length-1)`
(reduced mod the length so that any natural number is a valid draw).
Returns `none` only when the JavaScript code would return `undefined`
(indexing into an empty array). -/
noncomputable def selectWeightedCharacter (s : SelectorState) (now : ℤ)
    (js : ℕ → ℝ) (r : ℝ) (fb : ℕ) (chars : List String)
    (excludeChar : Option String) : Option String :=
  let avail := availableChars chars excludeChar
  if avail.length = 0 then chars.head?
  else if avail.length = 1 then avail.head?
  else
    match walkSelect r (buildWeights s avail chars now js 0) with
    | some c => some c
    | none => avail[fb % avail.length]?

/-- `updateCharacterWeight(char, isCorrect)` (the spec's `recordAnswer`):
seeds a fresh record from the outcome when the character is untracked;
otherwise bumps the lifetime and consecutive counters, on a wrong answer
appends `now` to `recentMisses` and keeps only misses from the last two
minutes, and always sets `lastSeen` to `now`. -/
def updateCharacterWeight (s : SelectorState) (char : String)
    (isCorrect : Bool) (now : ℤ) : SelectorState :=
  match s char with
  | none =>
      setRecord s char
        ⟨if isCorrect then 1 else 0, if isCorrect then 0 else 1,
         if isCorrect then [] else [now], now,
         if isCorrect then 1 else 0, if isCorrect then 0 else 1⟩
  | some existing =>
      if isCorrect then
        setRecord s char
          ⟨existing.correct + 1, existing.wrong, existing.recentMisses, now,
           existing.consecutiveCorrect + 1, 0⟩
      else
        setRecord s char
          ⟨existing.correct, existing.wrong + 1,
           (existing.recentMisses ++ [now]).filter
             (fun t => decide (now - t < 120000)),
           now, 0, existing.consecutiveWrong + 1⟩

/-- `markCharacterSeen(char)` (the spec's `markSeen`): refreshes `lastSeen`
of an existing record, or creates an all-zero record with `lastSeen = now`. -/
def markCharacterSeen (s : SelectorState) (char : String) (now : ℤ) :
    SelectorState :=
  match s char with
  | some existing =>
      setRecord s char
        ⟨existing.correct, existing.wrong, existing.recentMisses, now,
         existing.consecutiveCorrect, existing.consecutiveWrong⟩
  | none => setRecord s char ⟨0, 0, [], now, 0, 0⟩

/-- `reset()`: `characterWeights.clear()`. -/
def reset (_s : SelectorState) : SelectorState := fun _ => none

/-- `getCharacterWeight(char)` (the spec's `getRecord`):
`characterWeights.get(char)`. -/
def getCharacterWeight (s : SelectorState) (char : String) :
    Option CharacterWeight :=
  s char

/-- The state-passing form of `selectWeightedCharacter`: the source function
only reads the `characterWeights` map (via `calculateWeight`) and performs no
`set`/`delete`/`clear`, so its state-transformer embedding returns the input
state unchanged together with the selected character. -/
noncomputable def selectWeightedStep (s : SelectorState) (now : ℤ)
    (js : ℕ → ℝ) (r : ℝ) (fb : ℕ) (chars : List String)
    (excludeChar : Option String) : SelectorState × Option String :=
  (s, selectWeightedCharacter s now js r fb chars excludeChar)

/-- States reachable from a freshly created selector by the three mutating
operations (`updateCharacterWeight`, `markCharacterSeen`, `reset`). -/
inductive Reachable : SelectorState → Prop where
  | empty : Reachable emptyState
  | record (s : SelectorState) (char : String) (isCorrect : Bool) (now : ℤ) :
      Reachable s → Reachable (updateCharacterWeight s char isCorrect now)
  | seen (s : SelectorState) (char : String) (now : ℤ) :
      Reachable s → Reachable (markCharacterSeen s char now)
  | cleared (s : SelectorState) : Reachable s → Reachable (reset s)

/-- C1: for every selector state (record present or not), every character,
every candidate pool, every current time and every jitter draw, the value of
`calculateWeight` lies in the closed interval `[0.1, 5.0]`. -/
theorem calculateWeight_bounds (s : SelectorState) (char : String)
    (allChars : List String) (now : ℤ) (jitter : ℝ) :
    0.1 ≤ calculateWeight s char allChars now jitter ∧
      calculateWeight s char allChars now jitter ≤ 5.0 := by
  unfold calculateWeight
  cases s char with
  | none => norm_num
  | some w =>
      refine ⟨le_max_left _ _, max_le (by norm_num) ?_⟩
      exact le_trans (min_le_left _ _) (by norm_num)

/-- Lower numeric bound for `exp 3`, used for the sigmoid calibration values. -/
lemma exp_three_gt : (19 : ℝ) < Real.exp 3 := by
  have h : Real.exp 3 = Real.exp 1 * Real.exp 1 * Real.exp 1 := by
    rw [show (3 : ℝ) = 1 + 1 + 1 by norm_num, Real.exp_add, Real.exp_add]
  have he := Real.exp_one_gt_d9
  nlinarith [Real.exp_pos 1]

/-- Upper numeric bound for `exp 3`. -/
lemma exp_three_lt : Real.exp 3 < 20.1 := by
  have h : Real.exp 3 = Real.exp 1 * Real.exp 1 * Real.exp 1 := by
    rw [show (3 : ℝ) = 1 + 1 + 1 by norm_num, Real.exp_add, Real.exp_add]
  have he := Real.exp_one_lt_d9
  nlinarith [Real.exp_pos 1]

/-- The accuracy factor at accuracy 0 (never correct, at least one attempt). -/
lemma accuracyWeight_all_wrong (w : ℕ) (hw : 0 < w) :
    accuracyWeight 0 w = 2.5 * (1 + (Real.exp 3)⁻¹)⁻¹ := by
  simp only [accuracyWeight, sigmoid]
  rw [if_pos (by omega : 0 < 0 + w)]
  norm_num
  exact Real.exp_neg 3

/-- The accuracy factor at accuracy 1/2 (equally many correct and wrong). -/
lemma accuracyWeight_half (n : ℕ) (hn : 0 < n) :
    accuracyWeight n n = 1.25 := by
  simp only [accuracyWeight, sigmoid]
  rw [if_pos (by omega : 0 < n + n)]
  have hacc : (n : ℝ) / ((n + n : ℕ) : ℝ) = 1 / 2 := by
    have : (n : ℝ) ≠ 0 := Nat.cast_ne_zero.mpr (by omega)
    push_cast
    field_simp
    ring
  rw [hacc]
  norm_num

/-- The accuracy factor at accuracy 1 (always correct). -/
lemma accuracyWeight_all_correct (n : ℕ) (hn : 0 < n) :
    accuracyWeight n 0 = 2.5 * (1 + Real.exp 3)⁻¹ := by
  simp only [accuracyWeight, sigmoid]
  rw [if_pos (by omega : 0 < n + 0)]
  have hacc : (n : ℝ) / ((n + 0 : ℕ) : ℝ) = 1 := by
    have : (n : ℝ) ≠ 0 := Nat.cast_ne_zero.mpr (by omega)
    push_cast
    field_simp
  rw [hacc]
  norm_num

/-- The accuracy factor with no attempts yet (default accuracy 0.5). -/
lemma accuracyWeight_default : accuracyWeight 0 0 = 1.25 := by
  simp only [accuracyWeight, sigmoid]
  norm_num

/-- C2 counterexample: at 50% accuracy (one correct, one wrong) the accuracy
factor is exactly `2.5 * sigmoid(0, 6, 0) = 1.25`, which is NOT within ±5% of
the claimed calibration value 1.5 (the admissible band is `[1.425, 1.575]`). -/
theorem accuracy_calibration_half_fails :
    accuracyWeight 1 1 = 1.25 ∧
      ¬(1.5 - 0.05 * 1.5 ≤ accuracyWeight 1 1 ∧
        accuracyWeight 1 1 ≤ 1.5 + 0.05 * 1.5) := by
  have h := accuracyWeight_half 1 (by norm_num)
  refine ⟨h, ?_⟩
  rw [h]
  norm_num

/-- C2 (amended): the accuracy factor is `2.5 * sigmoid(0.5 - accuracy, 6, 0)`
with accuracy defaulting to 0.5 when there are no attempts (giving 1.25); at
0% accuracy the factor is ≈ 2.381 (within ±5% of 2.5), at 50% accuracy it is
exactly 1.25 (not ≈ 1.5), and at 100% accuracy it is ≈ 0.119
(not ≈ 0.3, nor within ±5% of it). -/
theorem accuracy_calibration (n : ℕ) (hn : 0 < n) :
    (2.375 ≤ accuracyWeight 0 n ∧ accuracyWeight 0 n ≤ 2.625) ∧
      accuracyWeight n n = 1.25 ∧
      (0.11 ≤ accuracyWeight n 0 ∧ accuracyWeight n 0 ≤ 0.125) ∧
      accuracyWeight 0 0 = 1.25 := by
  have h19 := exp_three_gt
  have h201 := exp_three_lt
  have hpos : (0 : ℝ) < Real.exp 3 := Real.exp_pos 3
  refine ⟨?_, accuracyWeight_half n hn, ?_, accuracyWeight_default⟩
  · rw [accuracyWeight_all_wrong n hn]
    have hinvpos : (0 : ℝ) < (Real.exp 3)⁻¹ := by positivity
    have hinv : (Real.exp 3)⁻¹ < 1 / 19 := by
      rw [inv_lt_comm₀ hpos (by norm_num)]
      simpa using h19
    have hd : (0 : ℝ) < 1 + (Real.exp 3)⁻¹ := by linarith
    constructor
    · rw [le_mul_inv_iff₀ hd]
      nlinarith
    · have hc := mul_inv_cancel₀ (ne_of_gt hd)
      nlinarith [hc, hinvpos]
  · rw [accuracyWeight_all_correct n hn]
    have hd : (0 : ℝ) < 1 + Real.exp 3 := by linarith
    have hinvpos : (0 : ℝ) < (1 + Real.exp 3)⁻¹ := by positivity
    constructor
    · rw [le_mul_inv_iff₀ hd]
      nlinarith
    · have hile : (1 + Real.exp 3)⁻¹ ≤ 1 / 20 := by
        rw [inv_le_comm₀ hd (by norm_num)]
        norm_num
        linarith
      nlinarith

/-- C2 witness: the amended calibration facts at one correct/one wrong. -/
theorem accuracy_calibration_witness :
    2.375 ≤ accuracyWeight 0 1 ∧ accuracyWeight 1 1 = 1.25 ∧
      accuracyWeight 1 0 ≤ 0.125 :=
  ⟨(accuracy_calibration 1 (by norm_num)).1.1,
   (accuracy_calibration 1 (by norm_num)).2.1,
   (accuracy_calibration 1 (by norm_num)).2.2.1.2⟩

/-- C3: `updateCharacterWeight` (the spec's `recordAnswer`) seeds a fresh
record from the outcome when the character is untracked (matching lifetime
and consecutive counters, an initial miss timestamp when wrong); on an
existing record it increments the matching lifetime counter, zeroes the
opposite consecutive counter, increments the matching consecutive counter,
on a wrong answer appends `now` to the miss list and keeps only misses
younger than 120 seconds, and always sets the last-seen time to `now`. -/
theorem updateCharacterWeight_spec (s : SelectorState) (char : String)
    (isCorrect : Bool) (now : ℤ) :
    updateCharacterWeight s char isCorrect now char =
      some (match s char with
        | none =>
            ⟨if isCorrect then 1 else 0, if isCorrect then 0 else 1,
             if isCorrect then [] else [now], now,
             if isCorrect then 1 else 0, if isCorrect then 0 else 1⟩
        | some r =>
            if isCorrect then
              ⟨r.correct + 1, r.wrong, r.recentMisses, now,
               r.consecutiveCorrect + 1, 0⟩
            else
              ⟨r.correct, r.wrong + 1,
               (r.recentMisses ++ [now]).filter
                 (fun t => decide (now - t < 120000)),
               now, 0, r.consecutiveWrong + 1⟩) := by
  cases h : s char with
  | none => cases isCorrect <;> simp [updateCharacterWeight, setRecord, h]
  | some r => cases isCorrect <;> simp [updateCharacterWeight, setRecord, h]

/-- On the plateau 3 ≤ c ≤ 7 the cooldown is the linear ramp. -/
lemma masteryCooldown_mid (c : ℕ) (h3 : 3 ≤ c) (h7 : c ≤ 7) :
    masteryCooldown c = 1 - 0.15 * ((c : ℝ) - 2) := by
  have hc7 : (c : ℝ) ≤ 7 := by exact_mod_cast h7
  have hc3 : (3 : ℝ) ≤ (c : ℝ) := by exact_mod_cast h3
  unfold masteryCooldown
  rw [if_pos h3, min_eq_left (by linarith), max_eq_right (by linarith)]

/-- From 7 consecutive correct answers on, the cooldown is constantly 0.25. -/
lemma masteryCooldown_high (c : ℕ) (h7 : 7 ≤ c) :
    masteryCooldown c = 0.25 := by
  have hc7 : (7 : ℝ) ≤ (c : ℝ) := by exact_mod_cast h7
  unfold masteryCooldown
  rw [if_pos (by omega), min_eq_right (by linarith), max_eq_right (by norm_num)]
  norm_num

/-- C9: the mastery-cooldown factor equals
`max(0.15, 1 - 0.15 * min(consecutiveCorrect - 2, 5))` when
`consecutiveCorrect ≥ 3` and 1 otherwise; at `consecutiveCorrect = 3` it is
≤ 1; it is non-increasing as `consecutiveCorrect` grows up to 7; and it is
constant for all `consecutiveCorrect ≥ 7`. -/
theorem masteryCooldown_spec :
    (∀ c, 3 ≤ c →
      masteryCooldown c = max 0.15 (1 - 0.15 * min ((c : ℝ) - 2) 5)) ∧
    (∀ c, c < 3 → masteryCooldown c = 1) ∧
    masteryCooldown 3 ≤ 1 ∧
    (∀ c h, c ≤ h → h ≤ 7 → masteryCooldown h ≤ masteryCooldown c) ∧
    (∀ c, 7 ≤ c → masteryCooldown c = masteryCooldown 7) := by
  have hlow : ∀ c : ℕ, c < 3 → masteryCooldown c = 1 := by
    intro c hc
    unfold masteryCooldown
    rw [if_neg (by omega)]
  refine ⟨?_, hlow, ?_, ?_, ?_⟩
  · intro c hc
    unfold masteryCooldown
    rw [if_pos hc]
  · rw [masteryCooldown_mid 3 (by norm_num) (by norm_num)]
    norm_num
  · intro c h hch h7
    rcases Nat.lt_or_ge h 3 with hh | hh
    · rw [hlow h hh, hlow c (by omega)]
    · have hhm := masteryCooldown_mid h hh h7
      rcases Nat.lt_or_ge c 3 with hc | hc
      · rw [hlow c hc, hhm]
        have : (3 : ℝ) ≤ (h : ℝ) := by exact_mod_cast hh
        nlinarith
      · rw [hhm, masteryCooldown_mid c hc (by omega)]
        have : (c : ℝ) ≤ (h : ℝ) := by exact_mod_cast hch
        nlinarith
  · intro c hc
    rw [masteryCooldown_high c hc, masteryCooldown_high 7 (by norm_num)]

/-- C9 witness: the cooldown facts at concrete streak lengths. -/
theorem masteryCooldown_spec_witness :
    masteryCooldown 2 = 1 ∧ masteryCooldown 7 ≤ masteryCooldown 3 ∧
      masteryCooldown 9 = masteryCooldown 7 :=
  ⟨masteryCooldown_spec.2.1 2 (by norm_num),
   masteryCooldown_spec.2.2.2.1 3 7 (by norm_num) (by norm_num),
   masteryCooldown_spec.2.2.2.2 9 (by norm_num)⟩

/-- C8: in every selector state reachable from the empty state by
`updateCharacterWeight` (record answer), `markCharacterSeen` and `reset`,
every record has at most one nonzero consecutive counter. -/
theorem consecutive_counters_exclusive (s : SelectorState) (hs : Reachable s) :
    ∀ c r, getCharacterWeight s c = some r →
      r.consecutiveCorrect = 0 ∨ r.consecutiveWrong = 0 := by
  induction hs with
  | empty =>
      intro c r hr
      simp [getCharacterWeight, emptyState] at hr
  | record s char isCorrect now hs ih =>
      intro c r hr
      unfold getCharacterWeight updateCharacterWeight at hr
      cases h : s char with
      | none =>
          rw [h] at hr
          simp only [setRecord] at hr
          by_cases hc : c = char
          · rw [if_pos hc, Option.some.injEq] at hr
            subst hr
            cases isCorrect <;> simp
          · rw [if_neg hc] at hr
            exact ih c r hr
      | some existing =>
          rw [h] at hr
          by_cases hc : c = char
          · cases isCorrect <;>
              simp only [Bool.false_eq_true, if_true, if_false, reduceIte,
                setRecord] at hr <;>
              rw [if_pos hc, Option.some.injEq] at hr <;>
              subst hr <;> simp
          · cases isCorrect <;>
              simp only [Bool.false_eq_true, if_true, if_false, reduceIte,
                setRecord] at hr <;>
              rw [if_neg hc] at hr <;>
              exact ih c r hr
  | seen s char now hs ih =>
      intro c r hr
      unfold getCharacterWeight markCharacterSeen at hr
      cases h : s char with
      | none =>
          rw [h] at hr
          simp only [setRecord] at hr
          by_cases hc : c = char
          · rw [if_pos hc, Option.some.injEq] at hr
            subst hr
            simp
          · rw [if_neg hc] at hr
            exact ih c r hr
      | some existing =>
          rw [h] at hr
          simp only [setRecord] at hr
          by_cases hc : c = char
          · rw [if_pos hc, Option.some.injEq] at hr
            subst hr
            have := ih char existing h
            simpa using this
          · rw [if_neg hc] at hr
            exact ih c r hr
  | cleared s hs ih =>
      intro c r hr
      simp [getCharacterWeight, reset] at hr

/-- C8 witness: the invariant at the state reached by one correct answer. -/
theorem consecutive_counters_exclusive_witness :
    (⟨1, 0, [], 0, 1, 0⟩ : CharacterWeight).consecutiveCorrect = 0 ∨
      (⟨1, 0, [], 0, 1, 0⟩ : CharacterWeight).consecutiveWrong = 0 :=
  consecutive_counters_exclusive
    (updateCharacterWeight emptyState "a" true 0)
    (Reachable.record emptyState "a" true 0 Reachable.empty) "a" _ rfl

/-- The character components of the built weight list are the candidates. -/
lemma buildWeights_map_fst (s : SelectorState) (cands allChars : List String)
    (now : ℤ) (js : ℕ → ℝ) (i : ℕ) :
    (buildWeights s cands allChars now js i).map Prod.fst = cands := by
  induction cands generalizing i with
  | nil => rfl
  | cons c rest ih => simp [buildWeights, ih]

lemma walkSelect_mem (r : ℝ) (ws : List (String × ℝ)) (c : String)
    (h : walkSelect r ws = some c) : c ∈ ws.map Prod.fst := by
  induction ws generalizing r with
  | nil => simp [walkSelect] at h
  | cons p rest ih =>
      obtain ⟨pc, pw⟩ := p
      rw [walkSelect] at h
      by_cases hle : r - pw ≤ 0
      · rw [if_pos hle, Option.some.injEq] at h
        subst h
        simp
      · rw [if_neg hle] at h
        simpa using Or.inr (by simpa using ih (r - pw) h)

/-- every possible output of the main branch is a member of avail -/
lemma selectWeighted_mem (s : SelectorState) (now : ℤ) (js : ℕ → ℝ) (r : ℝ)
    (fb : ℕ) (chars : List String) (ex : Option String) (c : String)
    (hne : availableChars chars ex ≠ [])
    (h : selectWeightedCharacter s now js r fb chars ex = some c) :
    c ∈ availableChars chars ex := by
  set avail := availableChars chars ex with havail
  have hlen : avail.length ≠ 0 := fun h0 => hne (List.length_eq_zero.mp h0)
  rw [selectWeightedCharacter] at h
  simp only [← havail] at h
  rw [if_neg hlen] at h
  by_cases h1 : avail.length = 1
  · rw [if_pos h1] at h
    exact List.mem_of_mem_head? (by simpa using h)
  · rw [if_neg h1] at h
    cases hw : walkSelect r (buildWeights s avail chars now js 0) with
    | some c2 =>
        rw [hw] at h
        cases h
        have := walkSelect_mem r _ _ hw
        rwa [buildWeights_map_fst] at this
    | none =>
        rw [hw] at h
        have hmod : fb % avail.length < avail.length :=
          Nat.mod_lt _ (Nat.pos_of_ne_zero hlen)
        rw [List.getElem?_eq_getElem hmod, Option.some.injEq] at h
        subst h
        exact List.getElem_mem _

lemma selectWeighted_isSome (s : SelectorState) (now : ℤ) (js : ℕ → ℝ) (r : ℝ)
    (fb : ℕ) (chars : List String) (ex : Option String)
    (hne : availableChars chars ex ≠ []) :
    ∃ c, selectWeightedCharacter s now js r fb chars ex = some c := by
  set avail := availableChars chars ex with havail
  have hlen : avail.length ≠ 0 := fun h0 => hne (List.length_eq_zero.mp h0)
  rw [selectWeightedCharacter]
  simp only [← havail]
  rw [if_neg hlen]
  by_cases h1 : avail.length = 1
  · rw [if_pos h1]
    obtain ⟨a, ha⟩ := List.length_eq_one.mp h1
    exact ⟨a, by rw [ha]; rfl⟩
  · rw [if_neg h1]
    cases hw : walkSelect r (buildWeights s avail chars now js 0) with
    | some c2 => exact ⟨c2, rfl⟩
    | none =>
        have hmod : fb % avail.length < avail.length :=
          Nat.mod_lt _ (Nat.pos_of_ne_zero hlen)
        rw [List.getElem?_eq_getElem hmod]
        exact ⟨_, rfl⟩

/-- C4 counterexample: because JavaScript treats the empty string as falsy,
`selectWeightedCharacter(pool, "")` performs no filtering; with the pool
`["", "a"]` (two distinct items, one of which is the excluded `""`) and
selection draw 1/2 the walk returns the excluded empty string itself. -/
theorem selectWeighted_returns_excluded_empty :
    selectWeightedCharacter emptyState 0 (fun _ => 0) (1 / 2) 0 ["", "a"]
      (some "") = some "" := by
  simp only [selectWeightedCharacter, availableChars, if_pos rfl]
  norm_num [buildWeights, walkSelect, calculateWeight, emptyState]

/-- C4 (amended): for every pool containing at least 2 distinct items one of
which is `x`, and every NONEMPTY exclusion string `x` (an empty-string
exclusion argument is falsy in the source and therefore ignored),
`selectWeightedCharacter` returns some character different from `x`,
regardless of selector state and random draws. -/
theorem selectWeighted_ne_exclude (s : SelectorState) (now : ℤ) (js : ℕ → ℝ)
    (r : ℝ) (fb : ℕ) (chars : List String) (x : String) (hnempty : x ≠ "")
    (_hx : x ∈ chars) (y : String) (hy : y ∈ chars) (hyx : y ≠ x) :
    ∃ c, selectWeightedCharacter s now js r fb chars (some x) = some c ∧
      c ≠ x := by
  have havail : availableChars chars (some x) =
      chars.filter (fun c => c ≠ x) := by
    simp only [availableChars]
    rw [if_neg hnempty]
  have hyin : y ∈ availableChars chars (some x) := by
    rw [havail, List.mem_filter]
    exact ⟨hy, by simpa using hyx⟩
  have hnonempty : availableChars chars (some x) ≠ [] := by
    intro h0
    rw [h0] at hyin
    simp at hyin
  obtain ⟨c, hc⟩ := selectWeighted_isSome s now js r fb chars (some x) hnonempty
  refine ⟨c, hc, ?_⟩
  have hmem := selectWeighted_mem s now js r fb chars (some x) c hnonempty hc
  rw [havail, List.mem_filter] at hmem
  simpa using hmem.2

/-- C4 witness: excluding "a" from the two-element pool. -/
theorem selectWeighted_ne_exclude_witness :
    ∃ c, selectWeightedCharacter emptyState 0 (fun _ => 0) 0 0 ["a", "b"]
      (some "a") = some c ∧ c ≠ "a" :=
  selectWeighted_ne_exclude emptyState 0 (fun _ => 0) 0 0 ["a", "b"] "a"
    (by decide) (by simp) "b" (by simp) (by decide)

/-- C5 counterexample: a tracked character (record present, e.g. created by
`markCharacterSeen` and never answered) can still get weight exactly 1.0: with
0/0 attempts the accuracy factor is 1.25, all other deterministic factors are
1 for a character last seen 10 seconds ago, and the exploration factor at
jitter draw 0 is 0.8, so the clamped product is 1.25 · 0.8 = 1.0. Hence
"`computeWeight` = 1.0 exactly when no record exists" is false. -/
theorem calculateWeight_tracked_can_be_one :
    getCharacterWeight (setRecord emptyState "a" ⟨0, 0, [], 0, 0, 0⟩) "a" ≠
        none ∧
      calculateWeight (setRecord emptyState "a" ⟨0, 0, [], 0, 0, 0⟩) "a"
        ["a", "b", "c"] 10000 0 = 1.0 := by
  constructor
  · simp [getCharacterWeight, setRecord]
  · have hs : (setRecord emptyState "a" ⟨0, 0, [], 0, 0, 0⟩) "a" =
        some ⟨0, 0, [], 0, 0, 0⟩ := rfl
    unfold calculateWeight
    rw [hs]
    simp only []
    rw [accuracyWeight_default]
    norm_num [recentMissWeight, streakPenalty, masteryCooldown,
      freshnessBoost, explorationFactor]

/-- C5 (amended): `calculateWeight` returns exactly 1.0 whenever no record
exists for the character (neutral prior for unseen items); a tracked
character instead takes the six-factor path, whose clamped product can
coincidentally equal 1.0 as well for some records and jitter draws. -/
theorem calculateWeight_untracked (s : SelectorState) (char : String)
    (allChars : List String) (now : ℤ) (jitter : ℝ) (h : s char = none) :
    calculateWeight s char allChars now jitter = 1.0 := by
  unfold calculateWeight
  rw [h]

/-- C5 witness: an untracked character in the empty state has weight 1. -/
theorem calculateWeight_untracked_witness :
    calculateWeight emptyState "a" ["a", "b"] 0 0 = 1.0 :=
  calculateWeight_untracked emptyState "a" ["a", "b"] 0 0 rfl

/-- C7: for a non-empty pool, when the exclusion empties the candidate set
the selection ignores the exclusion and returns the first element of the
original pool (which exists); when exactly one candidate remains it is
returned directly, independently of the selector state and of every random
draw (no weight computation or selection draw can influence it). -/
theorem selectWeighted_fallbacks (chars : List String) (ex : Option String)
    (hpool : chars ≠ []) :
    ((availableChars chars ex).length = 0 →
      ∀ s now js r fb,
        selectWeightedCharacter s now js r fb chars ex = chars.head? ∧
          chars.head? ≠ none) ∧
    ((availableChars chars ex).length = 1 →
      ∀ s now js r fb,
        selectWeightedCharacter s now js r fb chars ex =
          (availableChars chars ex).head?) := by
  constructor
  · intro h0 s now js r fb
    constructor
    · simp only [selectWeightedCharacter]
      rw [if_pos h0]
    · cases chars with
      | nil => exact absurd rfl hpool
      | cons a rest => simp
  · intro h1 s now js r fb
    simp only [selectWeightedCharacter]
    rw [if_neg (by omega), if_pos h1]

/-- C7 witness: a single-item pool whose item is excluded still returns it,
and a pool reduced to one candidate returns that candidate. -/
theorem selectWeighted_fallbacks_witness :
    selectWeightedCharacter emptyState 0 (fun _ => 0) 0 0 ["a"] (some "a") =
        some "a" ∧
      selectWeightedCharacter emptyState 0 (fun _ => 0) 0 0 ["a", "b"]
        (some "b") = some "a" :=
  ⟨((selectWeighted_fallbacks ["a"] (some "a") (by simp)).1
      (by decide) emptyState 0 (fun _ => 0) 0 0).1,
    (selectWeighted_fallbacks ["a", "b"] (some "b") (by simp)).2
      (by decide) emptyState 0 (fun _ => 0) 0 0⟩

/-- C10: the selection operation never mutates the selector state: in its
state-passing embedding the output state is the input state, so every record
observable through `getCharacterWeight` (all six fields) is unchanged by a
call, and its result is the pure selection function of the input state. -/
theorem selectWeighted_preserves_state (s : SelectorState) (now : ℤ)
    (js : ℕ → ℝ) (r : ℝ) (fb : ℕ) (chars : List String) (ex : Option String) :
    (∀ c, getCharacterWeight (selectWeightedStep s now js r fb chars ex).1 c =
        getCharacterWeight s c) ∧
      (selectWeightedStep s now js r fb chars ex).2 =
        selectWeightedCharacter s now js r fb chars ex :=
  ⟨fun _ => rfl, rfl⟩

/-- Lower bound for the accuracy factor at accuracy 0. -/
lemma accuracyWeight_all_wrong_ge (w : ℕ) (hw : 0 < w) :
    2.375 ≤ accuracyWeight 0 w := by
  rw [accuracyWeight_all_wrong w hw]
  have h19 := exp_three_gt
  have hpos : (0 : ℝ) < Real.exp 3 := Real.exp_pos 3
  have hinvpos : (0 : ℝ) < (Real.exp 3)⁻¹ := by positivity
  have hinv : (Real.exp 3)⁻¹ < 1 / 19 := by
    rw [inv_lt_comm₀ hpos (by norm_num)]
    simpa using h19
  have hd : (0 : ℝ) < 1 + (Real.exp 3)⁻¹ := by linarith
  rw [le_mul_inv_iff₀ hd]
  nlinarith

/-- Three same-instant misses leave three full-boost entries. -/
lemma recentMissWeight_three_fresh (t : ℤ) :
    recentMissWeight t [t, t, t] = 1.5 := by
  simp only [recentMissWeight, List.foldl, sub_self]
  norm_num

/-- C6: starting from the empty state with pool `["あ","い","う"]`, after
recording three wrong answers for "あ" at one instant `t`, the weight of "あ"
is strictly greater than 1 for every jitter draw in `[0, 1]` (indeed for any
nonnegative draw), while the unseen "い" has weight exactly 1; hence the
weight of "あ" strictly exceeds the weight of "い". -/
theorem three_misses_weight_exceeds_unseen (t : ℤ) (j jUnseen : ℝ)
    (hj : 0 ≤ j) :
    1 < calculateWeight
        (updateCharacterWeight (updateCharacterWeight (updateCharacterWeight
          emptyState "あ" false t) "あ" false t) "あ" false t)
        "あ" ["あ", "い", "う"] t j ∧
      calculateWeight
        (updateCharacterWeight (updateCharacterWeight (updateCharacterWeight
          emptyState "あ" false t) "あ" false t) "あ" false t)
        "い" ["あ", "い", "う"] t jUnseen = 1 ∧
      calculateWeight
        (updateCharacterWeight (updateCharacterWeight (updateCharacterWeight
          emptyState "あ" false t) "あ" false t) "あ" false t)
        "い" ["あ", "い", "う"] t jUnseen <
        calculateWeight
        (updateCharacterWeight (updateCharacterWeight (updateCharacterWeight
          emptyState "あ" false t) "あ" false t) "あ" false t)
        "あ" ["あ", "い", "う"] t j := by
  have hsA : updateCharacterWeight (updateCharacterWeight
      (updateCharacterWeight emptyState "あ" false t) "あ" false t)
      "あ" false t "あ" = some ⟨0, 3, [t, t, t], t, 0, 3⟩ := by
    have hf : decide (t - t < 120000) = true := by simp
    simp [updateCharacterWeight, setRecord, emptyState, hf, List.filter]
  have hsI : updateCharacterWeight (updateCharacterWeight
      (updateCharacterWeight emptyState "あ" false t) "あ" false t)
      "あ" false t "い" = none := by
    simp [updateCharacterWeight, setRecord, emptyState]
  have hwA : calculateWeight
      (updateCharacterWeight (updateCharacterWeight (updateCharacterWeight
        emptyState "あ" false t) "あ" false t) "あ" false t)
      "あ" ["あ", "い", "う"] t j =
      max 0.1 (min 5.0 (accuracyWeight 0 3 * (1 + recentMissWeight t [t, t, t]) *
        streakPenalty 3 * masteryCooldown 0 * freshnessBoost t t *
        explorationFactor 3 j)) := by
    unfold calculateWeight
    rw [hsA]
    rfl
  have hwI : calculateWeight
      (updateCharacterWeight (updateCharacterWeight (updateCharacterWeight
        emptyState "あ" false t) "あ" false t) "あ" false t)
      "い" ["あ", "い", "う"] t jUnseen = 1 := by
    unfold calculateWeight
    rw [hsI]
    norm_num
  have hstreak : streakPenalty 3 = 1 + 0.2 * Real.sqrt 3 := by
    unfold streakPenalty
    rw [if_pos (by norm_num)]
    norm_num
  have hmc : masteryCooldown 0 = 1 := by
    unfold masteryCooldown
    rw [if_neg (by norm_num)]
  have hfb : freshnessBoost t t = 0.3 := by
    unfold freshnessBoost
    rw [sub_self]
    norm_num
  have hef : explorationFactor 3 j = 0.8 + 0.2 * j := by
    unfold explorationFactor
    rw [if_neg (by norm_num)]
  have hsq : (1 : ℝ) ≤ Real.sqrt 3 := by
    rw [show (1 : ℝ) = Real.sqrt 1 by rw [Real.sqrt_one]]
    exact Real.sqrt_le_sqrt (by norm_num)
  have hA := accuracyWeight_all_wrong_ge 3 (by norm_num)
  have hkey : (1 : ℝ) < accuracyWeight 0 3 * (1 + recentMissWeight t [t, t, t]) *
      streakPenalty 3 * masteryCooldown 0 * freshnessBoost t t *
      explorationFactor 3 j := by
    rw [recentMissWeight_three_fresh, hstreak, hmc, hfb, hef]
    have h0 : (1.71 : ℝ) = 2.375 * (1 + 1.5) * (1 + 0.2 * 1) * 1 * 0.3 * (0.8 + 0.2 * 0) := by
      norm_num
    have h1 : (2.375 : ℝ) * (1 + 1.5) * (1 + 0.2 * 1) * 1 * 0.3 * (0.8 + 0.2 * 0) ≤
        accuracyWeight 0 3 * (1 + 1.5) * (1 + 0.2 * Real.sqrt 3) * 1 * 0.3 *
          (0.8 + 0.2 * j) := by
      gcongr
    linarith [h0, h1]
  have hgoalA : 1 < calculateWeight
      (updateCharacterWeight (updateCharacterWeight (updateCharacterWeight
        emptyState "あ" false t) "あ" false t) "あ" false t)
      "あ" ["あ", "い", "う"] t j := by
    rw [hwA]
    have hmin : (1 : ℝ) < min 5.0 (accuracyWeight 0 3 *
        (1 + recentMissWeight t [t, t, t]) * streakPenalty 3 *
        masteryCooldown 0 * freshnessBoost t t * explorationFactor 3 j) :=
      lt_min (by norm_num) hkey
    exact lt_of_lt_of_le hmin (le_max_right _ _)
  exact ⟨hgoalA, hwI, by rw [hwI]; exact hgoalA⟩

/-- C6 witness: the scenario at time 0 with jitter draws 0. -/
theorem three_misses_weight_exceeds_unseen_witness :
    1 < calculateWeight
        (updateCharacterWeight (updateCharacterWeight (updateCharacterWeight
          emptyState "あ" false 0) "あ" false 0) "あ" false 0)
        "あ" ["あ", "い", "う"] 0 0 ∧
      calculateWeight
        (updateCharacterWeight (updateCharacterWeight (updateCharacterWeight
          emptyState "あ" false 0) "あ" false 0) "あ" false 0)
        "い" ["あ", "い", "う"] 0 0 = 1 ∧
      calculateWeight
        (updateCharacterWeight (updateCharacterWeight (updateCharacterWeight
          emptyState "あ" false 0) "あ" false 0) "あ" false 0)
        "い" ["あ", "い", "う"] 0 0 <
        calculateWeight
        (updateCharacterWeight (updateCharacterWeight (updateCharacterWeight
          emptyState "あ" false 0) "あ" false 0) "あ" false 0)
        "あ" ["あ", "い", "う"] 0 0 :=
  three_misses_weight_exceeds_unseen 0 0 0 (le_refl 0)
